import Mathlib

/-!
Verification development for the GuestProxyAgent core request path.

The definitions below are a shallow embedding of the Rust sources of the
guest proxy agent: the authorization engine (`proxy/authorization_rules.rs`),
the shared state wrappers (`shared_state.rs`), the redirector IP helpers
(`redirector.rs`), the claims record (`proxy.rs`) and the request handler and
response forwarder (`proxy/proxy_server.rs`).  Machine integers are modelled
as `Nat` with explicit `% 2 ^ w` where wrap-around matters; fallible calls
return `Option`.  Effectful sub-calls of the request handler (audit lookup,
identity resolution, upstream send) are modelled as oracle inputs in a
`HandleEnv` record, mirroring the handler control flow exactly.
-/

namespace GuestProxyAgent

/-- Rust `str::to_lowercase` restricted to the ASCII strings used by the
rule engine (mode strings, paths, user/group/process names). -/
def lowerStr (s : String) : String :=
  String.mk (s.data.map Char.toLower)

/-- Case-insensitive string equality, modelling the Rust pattern
`a.to_lowercase() == b.to_lowercase()`. -/
def eqCI (a b : String) : Bool :=
  lowerStr a == lowerStr b

/-! ## Claims (`proxy.rs`) -/

/-- Claims record from `proxy.rs` (`pub struct Claims`). -/
structure Claims where
  userId : Nat
  userName : String
  userGroups : List String
  processId : Nat
  processName : String
  processFullPath : String
  processCmdLine : String
  runAsElevated : Bool
  clientIp : String
deriving Repr, DecidableEq

/-- Sentinel literal `EMPTY` from `proxy.rs`. -/
def EMPTY : String := "empty"

/-- `Claims::empty()` from `proxy.rs`. -/
def Claims.empty : Claims :=
  { userId := 0
    userName := EMPTY
    userGroups := []
    processId := 0
    processName := EMPTY
    processFullPath := EMPTY
    processCmdLine := EMPTY
    runAsElevated := false
    clientIp := EMPTY }

/-! ## Request URL

The engine receives a `hyper::Uri`; the rule matcher only consults its path
and its query key/value pairs, so the embedding keeps exactly those. -/

/-- Request URL as consumed by the rule matcher: a path plus decoded query
key/value pairs. -/
structure Url where
  path : String
  query : List (String × String)
deriving Repr, DecidableEq

/-! ## Privileges and identities

`Privilege` and `Identity` live in `key_keeper/key.rs`, which is not among
the provided sources; their matchers are modelled from the spec. -/

/-- Privilege record (`key_keeper::key::Privilege`): name, URL path, optional
query-parameter constraints. -/
structure Privilege where
  name : String
  path : String
  queryParameters : Option (List (String × String))
deriving Repr, DecidableEq

/-- Modelled from the spec: `Privilege::is_match` (in `key_keeper/key.rs`,
not among the provided sources).  Path match is prefix-match of the request
path against `privilege.path`, case-insensitive; if `queryParameters` is set,
every listed key/value must be present in the request query. -/
def Privilege.is_match (p : Privilege) (u : Url) : Bool :=
  (lowerStr p.path).data.isPrefixOf (lowerStr u.path).data &&
    match p.queryParameters with
    | none => true
    | some qps => qps.all (fun kv => u.query.contains kv)

/-- Identity record (`key_keeper::key::Identity`): name plus optional
matchers on user name, group name, process name and executable path. -/
structure Identity where
  name : String
  userName : Option String
  groupName : Option String
  processName : Option String
  exePath : Option String
deriving Repr, DecidableEq

/-- Modelled from the spec: `Identity::is_match` (in `key_keeper/key.rs`, not
among the provided sources).  A claim matches if any of the configured fields
equals the corresponding claim field: case-insensitive for user, group and
process name (the group matcher scans the claim user groups), case-sensitive
for `exePath`. -/
def Identity.is_match (i : Identity) (c : Claims) : Bool :=
  (match i.userName with
   | some u => eqCI u c.userName
   | none => false) ||
  (match i.groupName with
   | some g => c.userGroups.any (fun cg => eqCI g cg)
   | none => false) ||
  (match i.processName with
   | some p => eqCI p c.processName
   | none => false) ||
  (match i.exePath with
   | some e => e == c.processFullPath
   | none => false)

/-! ## Authorization rules (`proxy/authorization_rules.rs`) -/

/-- `Rule` from `proxy/authorization_rules.rs`. -/
structure Rule where
  roleName : String
  privileges : List Privilege
  identities : List Identity
deriving Repr, DecidableEq

/-- `AuthorizationRules` from `proxy/authorization_rules.rs`:
`defaultAllowed` (from `defaultAccess == "allow"`), lowercase `mode`
(`disabled`/`audit`/`enforce`) and the optional compiled rules. -/
structure AuthorizationRules where
  defaultAllowed : Bool
  mode : String
  rules : Option (List Rule)
deriving Repr, DecidableEq

/-- Inner privilege loop of `AuthorizationRules::is_allowed` for one rule:
walks the privileges; on a privilege match sets the `role_privilege_matched`
flag and scans the rule identities, returning allow on the first identity
match.  Result is `(early_allow, role_privilege_matched)`. -/
def privLoop (privs : List Privilege) (idents : List Identity) (u : Url)
    (c : Claims) (matched : Bool) : Bool × Bool :=
  match privs with
  | [] => (false, matched)
  | p :: rest =>
    if p.is_match u then
      if idents.any (fun i => i.is_match c) then
        (true, true)
      else
        privLoop rest idents u c true
    else
      privLoop rest idents u c matched

/-- Outer rule loop of `AuthorizationRules::is_allowed`: scans rules in
declaration order, threading the `role_privilege_matched` flag. -/
def rulesLoop (rules : List Rule) (u : Url) (c : Claims) (matched : Bool) :
    Bool × Bool :=
  match rules with
  | [] => (false, matched)
  | r :: rest =>
    let res := privLoop r.privileges r.identities u c matched
    if res.1 then
      (true, res.2)
    else
      rulesLoop rest u c res.2

/-- `AuthorizationRules::is_allowed` from `proxy/authorization_rules.rs`:
mode `disabled` always allows; otherwise the rules are scanned, the first
privilege-and-identity match allows, a privilege match without any identity
match denies, and otherwise the decision falls back to `defaultAllowed`.
The `connection_id` argument is only used for logging in the source. -/
def AuthorizationRules.is_allowed (R : AuthorizationRules)
    (connectionId : Nat) (u : Url) (c : Claims) : Bool :=
  if lowerStr R.mode = "disabled" then
    true
  else
    match R.rules with
    | some rules =>
      let res := rulesLoop rules u c false
      if res.1 then
        true
      else if res.2 then
        false
      else
        R.defaultAllowed
    | none => R.defaultAllowed

/-- Characterization of the privilege loop: it returns allow exactly when
some privilege matches and some identity of the same rule matches, and the
flag accumulates whether any privilege matched. -/
theorem privLoop_eq (privs : List Privilege) (idents : List Identity)
    (u : Url) (c : Claims) (m : Bool) :
    privLoop privs idents u c m =
      (privs.any (fun p => p.is_match u) && idents.any (fun i => i.is_match c),
       m || privs.any (fun p => p.is_match u)) := by
  induction privs generalizing m with
  | nil => simp [privLoop]
  | cons p rest ih =>
    by_cases hp : p.is_match u = true
    · by_cases hi : idents.any (fun i => i.is_match c) = true
      · simp [privLoop, hp, hi]
      · simp only [Bool.not_eq_true] at hi
        simp [privLoop, hp, hi, ih]
    · simp only [Bool.not_eq_true] at hp
      simp [privLoop, hp, ih]

/-- Characterization of the rule loop: allow exactly when some rule has both
a matching privilege and a matching identity; the flag accumulates whether
any privilege of any rule matched. -/
theorem rulesLoop_eq (rules : List Rule) (u : Url) (c : Claims) (m : Bool) :
    rulesLoop rules u c m =
      (rules.any (fun r =>
          r.privileges.any (fun p => p.is_match u) &&
          r.identities.any (fun i => i.is_match c)),
       m || rules.any (fun r => r.privileges.any (fun p => p.is_match u))) := by
  induction rules generalizing m with
  | nil => simp [rulesLoop]
  | cons r rest ih =>
    simp only [rulesLoop, privLoop_eq, List.any_cons]
    cases hpA : r.privileges.any (fun p => p.is_match u) <;>
      cases hiA : r.identities.any (fun i => i.is_match c) <;>
        simp [ih, Bool.or_assoc]

/-- Closed form of `is_allowed` for a non-disabled mode with rules present. -/
theorem is_allowed_eq (R : AuthorizationRules) (cid : Nat) (u : Url)
    (c : Claims) (rules : List Rule) (hr : R.rules = some rules)
    (hm : lowerStr R.mode ≠ "disabled") :
    R.is_allowed cid u c =
      (if rules.any (fun r =>
            r.privileges.any (fun p => p.is_match u) &&
            r.identities.any (fun i => i.is_match c)) then
        true
      else if rules.any (fun r => r.privileges.any (fun p => p.is_match u)) then
        false
      else
        R.defaultAllowed) := by
  simp only [AuthorizationRules.is_allowed, hr, if_neg hm, rulesLoop_eq,
    Bool.false_or]

/-! ## Concrete rule sets used as witnesses and counterexamples -/

/-- Request URL `/test/test` with no query, as in the repository tests. -/
def testUrl : Url := { path := "/test/test", query := [] }

/-- Request URL `/other` with no query. -/
def otherUrl : Url := { path := "/other", query := [] }

/-- A rule with privilege path `/test` and a single identity that only
constrains the user name to `test`. -/
def testRule : Rule :=
  { roleName := "test"
    privileges := [{ name := "test", path := "/test", queryParameters := none }]
    identities := [{ name := "test", userName := some "test",
                     groupName := none, processName := none, exePath := none }] }

/-- Audit-mode rules with default deny and `testRule` as the single rule. -/
def auditDenyRules : AuthorizationRules :=
  { defaultAllowed := false, mode := "audit", rules := some [testRule] }

/-- Enforce-mode rules with default allow and `testRule` as the single rule. -/
def enforceRules : AuthorizationRules :=
  { defaultAllowed := true, mode := "enforce", rules := some [testRule] }

/-- Claim C1, counterexample: with mode `audit`, default deny, a privilege
`/test` matching the request `/test/test`, and an identity constraining the
user name to `test` while the claims carry the sentinel user name `empty`,
`is_allowed` returns `false` — the decision returned to the caller under
audit mode is deny, contradicting the claim that it is always allow. -/
theorem audit_mode_returns_deny_at_concrete_input :
    auditDenyRules.mode = "audit" ∧
    auditDenyRules.is_allowed 0 testUrl Claims.empty = false := by
  constructor
  · rfl
  · decide

/-- Claim C1 (amended): `is_allowed` applies no audit special case: for every
`AuthorizationRules` value whose mode equals `audit`, and every connection
id, request URI and claims, `is_allowed` returns exactly what the same rules
return under mode `enforce`; in particular it returns deny (`false`) to the
caller whenever the rules evaluated under `enforce` deny.  The log-only
always-allow audit decision is not implemented inside `is_allowed`. -/
theorem audit_is_allowed_eq_enforce (R : AuthorizationRules) (cid : Nat)
    (u : Url) (c : Claims) (h : R.mode = "audit") :
    R.is_allowed cid u c =
      ({ R with mode := "enforce" } : AuthorizationRules).is_allowed cid u c := by
  rw [AuthorizationRules.is_allowed, AuthorizationRules.is_allowed]
  simp only [h]
  rw [if_neg (by decide), if_neg (by decide)]

/-- Witness for the amended claim C1 at a concrete denying rule set. -/
theorem audit_is_allowed_eq_enforce_witness :
    auditDenyRules.mode = "audit" ∧
    auditDenyRules.is_allowed 0 testUrl Claims.empty =
      ({ auditDenyRules with mode := "enforce" } :
          AuthorizationRules).is_allowed 0 testUrl Claims.empty :=
  ⟨rfl, audit_is_allowed_eq_enforce auditDenyRules 0 testUrl Claims.empty rfl⟩

/-- Claim C2: for rules whose mode is not `disabled` (per the data model the
mode is one of `disabled`, `audit`, `enforce`), if at least one privilege of
some rule matches the request URL but no identity of any rule whose
privilege matched the URL matches the claims, then `is_allowed` returns
`false`, independent of `defaultAllowed`. -/
theorem privilege_match_without_identity_denies (R : AuthorizationRules)
    (rules : List Rule) (cid : Nat) (u : Url) (c : Claims)
    (hr : R.rules = some rules)
    (hm : R.mode = "audit" ∨ R.mode = "enforce")
    (hp : ∃ r ∈ rules, ∃ p ∈ r.privileges, p.is_match u = true)
    (hi : ∀ r ∈ rules, (∃ p ∈ r.privileges, p.is_match u = true) →
          ∀ i ∈ r.identities, i.is_match c = false) :
    R.is_allowed cid u c = false := by
  have hm' : lowerStr R.mode ≠ "disabled" := by
    rcases hm with h | h <;> rw [h] <;> decide
  rw [is_allowed_eq R cid u c rules hr hm']
  have hany : rules.any (fun r => r.privileges.any (fun p => p.is_match u))
      = true := by
    rcases hp with ⟨r, hrmem, p, hpmem, hpm⟩
    exact List.any_eq_true.mpr ⟨r, hrmem, List.any_eq_true.mpr ⟨p, hpmem, hpm⟩⟩
  have hfull : rules.any (fun r =>
      r.privileges.any (fun p => p.is_match u) &&
      r.identities.any (fun i => i.is_match c)) = false := by
    rw [Bool.eq_false_iff]
    intro hcontra
    rcases List.any_eq_true.mp hcontra with ⟨r, hrmem, hb⟩
    rcases Bool.and_eq_true_iff.mp hb with ⟨hbp, hbi⟩
    rcases List.any_eq_true.mp hbp with ⟨p, hpmem, hpm⟩
    rcases List.any_eq_true.mp hbi with ⟨i, himem, him⟩
    have hfalse := hi r hrmem ⟨p, hpmem, hpm⟩ i himem
    rw [him] at hfalse
    exact Bool.noConfusion hfalse
  simp [hany, hfull]

/-- Witness for claim C2: privilege `/test` matches `/test/test`, the only
identity requires user name `test` while the claims carry `empty`, and the
decision is deny although `defaultAllowed` is `true`. -/
theorem privilege_match_without_identity_denies_witness :
    (∃ r ∈ [testRule], ∃ p ∈ r.privileges, p.is_match testUrl = true) ∧
    enforceRules.defaultAllowed = true ∧
    enforceRules.is_allowed 0 testUrl Claims.empty = false :=
  ⟨by decide, rfl,
    privilege_match_without_identity_denies enforceRules [testRule] 0 testUrl
      Claims.empty rfl (Or.inr rfl) (by decide) (by decide)⟩

/-- Claim C3: for rules whose mode is not `disabled` (per the data model the
mode is one of `disabled`, `audit`, `enforce`), if no privilege of any rule
matches the request URL — including when `rules` is absent — then
`is_allowed` returns exactly `defaultAllowed`. -/
theorem no_privilege_match_falls_back_to_default (R : AuthorizationRules)
    (cid : Nat) (u : Url) (c : Claims)
    (hm : R.mode = "audit" ∨ R.mode = "enforce")
    (hp : ∀ rules, R.rules = some rules →
          ∀ r ∈ rules, ∀ p ∈ r.privileges, p.is_match u = false) :
    R.is_allowed cid u c = R.defaultAllowed := by
  have hm' : lowerStr R.mode ≠ "disabled" := by
    rcases hm with h | h <;> rw [h] <;> decide
  cases hrules : R.rules with
  | none => rw [AuthorizationRules.is_allowed, if_neg hm', hrules]
  | some rules =>
    rw [is_allowed_eq R cid u c rules hrules hm']
    have hanyp : rules.any (fun r => r.privileges.any (fun p => p.is_match u))
        = false := by
      rw [Bool.eq_false_iff]
      intro hcontra
      rcases List.any_eq_true.mp hcontra with ⟨r, hrmem, hbp⟩
      rcases List.any_eq_true.mp hbp with ⟨p, hpmem, hpm⟩
      have hfalse := hp rules hrules r hrmem p hpmem
      rw [hpm] at hfalse
      exact Bool.noConfusion hfalse
    have hfull : rules.any (fun r =>
        r.privileges.any (fun p => p.is_match u) &&
        r.identities.any (fun i => i.is_match c)) = false := by
      rw [Bool.eq_false_iff]
      intro hcontra
      rcases List.any_eq_true.mp hcontra with ⟨r, hrmem, hb⟩
      rcases Bool.and_eq_true_iff.mp hb with ⟨hbp, _⟩
      have : rules.any (fun r => r.privileges.any (fun p => p.is_match u))
          = true := List.any_eq_true.mpr ⟨r, hrmem, hbp⟩
      rw [hanyp] at this
      exact Bool.noConfusion this
    simp [hanyp, hfull]

/-- Witness for claim C3: privilege `/test` does not match `/other`, so the
decision falls back to `defaultAllowed = true`. -/
theorem no_privilege_match_falls_back_to_default_witness :
    (∀ rules, enforceRules.rules = some rules →
      ∀ r ∈ rules, ∀ p ∈ r.privileges, p.is_match otherUrl = false) ∧
    enforceRules.is_allowed 0 otherUrl Claims.empty =
      enforceRules.defaultAllowed :=
  ⟨by decide,
    no_privilege_match_falls_back_to_default enforceRules 0 otherUrl
      Claims.empty (Or.inr rfl) (by decide)⟩

/-! ## Shared state (`shared_state.rs`)

The Rust code guards one process-wide record with a mutex and exposes
wrapper functions that lock, read or read-modify-write one field, and
unlock.  Each critical section is sequential, so a wrapper is embedded as a
pure function from the state (plus arguments) to its return value and the
successor state. -/

/-- `Key` from `key_keeper/key.rs` as used by `shared_state.rs`: a guid, the
key material and an optional incarnation id. -/
structure Key where
  guid : String
  key : String
  incarnationId : Option Nat
deriving Repr, DecidableEq

/-- Modelled from the spec: `key_keeper::UNKNOWN_STATE`, the initial
secure-channel state literal (`key_keeper.rs` is not among the provided
sources; the exact literal is irrelevant to every claim). -/
def UNKNOWN_STATE : String := "Unknown"

/-- Literal `UNKNOWN_STATUS_MESSAGE` from `shared_state.rs`. -/
def UNKNOWN_STATUS_MESSAGE : String := "Status unknown."

/-- `SharedState` from `shared_state.rs` with all of its fields. -/
structure SharedState where
  key : Option Key
  current_secure_channel_state : String
  wireserver_rule_id : String
  imds_rule_id : String
  key_keeper_shutdown : Bool
  key_keeper_status_message : String
  proxy_listner_shutdown : Bool
  connection_count : Nat
  proxy_listner_status_message : String
deriving Repr, DecidableEq

/-- `SharedState::default()` from `shared_state.rs`. -/
def SharedState.default : SharedState :=
  { key := none
    current_secure_channel_state := UNKNOWN_STATE
    wireserver_rule_id := ""
    imds_rule_id := ""
    key_keeper_shutdown := false
    key_keeper_status_message := UNKNOWN_STATUS_MESSAGE
    proxy_listner_shutdown := false
    connection_count := 0
    proxy_listner_status_message := UNKNOWN_STATUS_MESSAGE }

namespace key_keeper_wrapper

/-- `key_keeper_wrapper::update_current_secure_channel_state`: compares the
stored state with the argument; on equality returns `false` leaving the
state unchanged, otherwise stores the argument and returns `true`.  Note
that the Rust function returns only a `bool`, not a pair. -/
def update_current_secure_channel_state (s : SharedState) (state : String) :
    Bool × SharedState :=
  if s.current_secure_channel_state = state then
    (false, s)
  else
    (true, { s with current_secure_channel_state := state })

/-- `key_keeper_wrapper::update_wireserver_rule_id`: returns
`(changed, previous)` and stores the argument exactly when it differs. -/
def update_wireserver_rule_id (s : SharedState) (ruleId : String) :
    (Bool × String) × SharedState :=
  let oldRuleId := s.wireserver_rule_id
  if oldRuleId = ruleId then
    ((false, oldRuleId), s)
  else
    ((true, oldRuleId), { s with wireserver_rule_id := ruleId })

/-- `key_keeper_wrapper::update_imds_rule_id`: returns `(changed, previous)`
and stores the argument exactly when it differs. -/
def update_imds_rule_id (s : SharedState) (ruleId : String) :
    (Bool × String) × SharedState :=
  let oldRuleId := s.imds_rule_id
  if oldRuleId = ruleId then
    ((false, oldRuleId), s)
  else
    ((true, oldRuleId), { s with imds_rule_id := ruleId })

/-- `key_keeper_wrapper::set_status_message`. -/
def set_status_message (s : SharedState) (statusMessage : String) :
    SharedState :=
  { s with key_keeper_status_message := statusMessage }

/-- `key_keeper_wrapper::get_status_message`: returns a copy of the stored
message, with no length check or truncation. -/
def get_status_message (s : SharedState) : String :=
  s.key_keeper_status_message

end key_keeper_wrapper

namespace proxy_listener_wrapper

/-- `proxy_listener_wrapper::increase_connection_count`: a wrapping `u128`
increment (`overflowing_add`), returning the updated counter. -/
def increase_connection_count (s : SharedState) : Nat × SharedState :=
  let newCount := (s.connection_count + 1) % 2 ^ 128
  (newCount, { s with connection_count := newCount })

/-- `proxy_listener_wrapper::set_status_message`. -/
def set_status_message (s : SharedState) (statusMessage : String) :
    SharedState :=
  { s with proxy_listner_status_message := statusMessage }

/-- `proxy_listener_wrapper::get_status_message`: returns a copy of the
stored message, with no length check or truncation. -/
def get_status_message (s : SharedState) : String :=
  s.proxy_listner_status_message

end proxy_listener_wrapper

/-- Claim C5, counterexample: `update_current_secure_channel_state` does not
return the pair `(changed, previous)` — its Rust signature returns only the
`bool` flag.  Concretely, starting from two states whose stored
secure-channel states differ (`stateA` vs `stateB`), updating both with the
same argument yields identical return values, so the return value cannot
carry the previous state. -/
theorem secure_channel_update_returns_no_previous :
    (key_keeper_wrapper.update_current_secure_channel_state
        { SharedState.default with current_secure_channel_state := "stateA" }
        "new").1 =
      (key_keeper_wrapper.update_current_secure_channel_state
        { SharedState.default with current_secure_channel_state := "stateB" }
        "new").1 ∧
    ({ SharedState.default with
        current_secure_channel_state := "stateA" } :
        SharedState).current_secure_channel_state ≠
      ({ SharedState.default with
          current_secure_channel_state := "stateB" } :
          SharedState).current_secure_channel_state := by
  constructor
  · rfl
  · decide

/-- Claim C5 (amended): `update_wireserver_rule_id` and
`update_imds_rule_id` return the pair `(changed, previous)`: `previous` is
the value stored before the call, `changed` is true exactly when the
argument differs from the stored value, and the stored value is replaced by
the argument exactly in that case.  `update_current_secure_channel_state`
follows the same conditional-store semantics but returns only the `changed`
flag, not the previous value. -/
theorem update_functions_return_changed_and_previous (s : SharedState)
    (v : String) :
    ((key_keeper_wrapper.update_wireserver_rule_id s v).1.2 =
        s.wireserver_rule_id ∧
      ((key_keeper_wrapper.update_wireserver_rule_id s v).1.1 = true ↔
        s.wireserver_rule_id ≠ v) ∧
      (key_keeper_wrapper.update_wireserver_rule_id s v).2 =
        (if s.wireserver_rule_id = v then s
         else { s with wireserver_rule_id := v })) ∧
    ((key_keeper_wrapper.update_imds_rule_id s v).1.2 = s.imds_rule_id ∧
      ((key_keeper_wrapper.update_imds_rule_id s v).1.1 = true ↔
        s.imds_rule_id ≠ v) ∧
      (key_keeper_wrapper.update_imds_rule_id s v).2 =
        (if s.imds_rule_id = v then s else { s with imds_rule_id := v })) ∧
    (((key_keeper_wrapper.update_current_secure_channel_state s v).1 = true ↔
        s.current_secure_channel_state ≠ v) ∧
      (key_keeper_wrapper.update_current_secure_channel_state s v).2 =
        (if s.current_secure_channel_state = v then s
         else { s with current_secure_channel_state := v })) := by
  simp only [key_keeper_wrapper.update_wireserver_rule_id,
    key_keeper_wrapper.update_imds_rule_id,
    key_keeper_wrapper.update_current_secure_channel_state]
  refine ⟨⟨?_, ?_, ?_⟩, ⟨?_, ?_, ?_⟩, ⟨?_, ?_⟩⟩ <;> split_ifs <;> simp_all

/-- A stored status message of 1025 characters, used to exercise the claimed
1024-character truncation boundary. -/
def longMsg : String := String.mk (List.replicate 1025 'a')

set_option maxRecDepth 40000 in
/-- Claim C6, counterexample: a stored status message of 1025 characters is
returned unchanged by both read accessors — it is not truncated to 1024
characters, and no ellipsis (neither `...` nor the one-character `…`) is
appended at the read boundary. -/
theorem status_message_not_truncated_at_read :
    key_keeper_wrapper.get_status_message
        (key_keeper_wrapper.set_status_message SharedState.default longMsg) =
      longMsg ∧
    proxy_listener_wrapper.get_status_message
        (proxy_listener_wrapper.set_status_message SharedState.default
          longMsg) =
      longMsg ∧
    1024 < longMsg.length ∧
    longMsg ≠ String.mk (longMsg.data.take 1024) ++ "..." ∧
    longMsg ≠ String.mk (longMsg.data.take 1024) ++ "…" := by
  refine ⟨rfl, rfl, by decide, by decide, by decide⟩

/-- Claim C6 (amended): both read accessors (`key_keeper_wrapper` and
`proxy_listener_wrapper` `get_status_message`) return the stored status
message unchanged even when it is longer than 1024 characters; no
truncation or ellipsis is applied at the read boundary. -/
theorem get_status_message_returns_stored_unchanged (s : SharedState)
    (m : String) (h : 1024 < m.length) :
    key_keeper_wrapper.get_status_message
        (key_keeper_wrapper.set_status_message s m) = m ∧
    proxy_listener_wrapper.get_status_message
        (proxy_listener_wrapper.set_status_message s m) = m :=
  ⟨rfl, rfl⟩

set_option maxRecDepth 40000 in
/-- Witness for the amended claim C6 at the concrete 1025-character
message. -/
theorem get_status_message_returns_stored_unchanged_witness :
    1024 < longMsg.length ∧
    (key_keeper_wrapper.get_status_message
        (key_keeper_wrapper.set_status_message SharedState.default longMsg) =
      longMsg ∧
    proxy_listener_wrapper.get_status_message
        (proxy_listener_wrapper.set_status_message SharedState.default
          longMsg) =
      longMsg) :=
  ⟨by decide,
    get_status_message_returns_stored_unchanged SharedState.default longMsg
      (by decide)⟩

/-- Returned connection ids of a run of `n` successive
`increase_connection_count` calls starting from state `s`. -/
def runReturnedIds (s : SharedState) : Nat → List Nat
  | 0 => []
  | n + 1 =>
    let r := proxy_listener_wrapper.increase_connection_count s
    r.1 :: runReturnedIds r.2 n

/-- Closed form of a run of connection-count increments. -/
theorem runReturnedIds_eq (s : SharedState) (n : Nat) :
    runReturnedIds s n =
      (List.range n).map
        (fun i => (s.connection_count + i + 1) % 2 ^ 128) := by
  induction n generalizing s with
  | zero => simp [runReturnedIds]
  | succ n ih =>
    rw [List.range_succ_eq_map]
    simp only [runReturnedIds, proxy_listener_wrapper.increase_connection_count,
      ih, List.map_cons, List.map_map]
    refine congrArg₂ (· :: ·) (by omega) ?_
    refine List.map_congr_left (fun i _ => ?_)
    simp only [Function.comp_apply]
    rw [Nat.add_assoc _ i 1, Nat.mod_add_mod]
    congr 1
    omega

/-- Claim C8: `increase_connection_count` returns the previous counter value
plus one modulo `2 ^ 128` (wrapping at `u128::MAX` to `0`), and in any run
of strictly fewer than `2 ^ 128` calls starting from any counter value the
returned connection ids are pairwise distinct. -/
theorem increase_connection_count_wraps_and_ids_unique :
    (∀ s : SharedState,
      (proxy_listener_wrapper.increase_connection_count s).1 =
        (s.connection_count + 1) % 2 ^ 128) ∧
    ((proxy_listener_wrapper.increase_connection_count
        { SharedState.default with connection_count := 2 ^ 128 - 1 }).1 = 0) ∧
    (∀ (s : SharedState) (n : Nat), n < 2 ^ 128 →
      (runReturnedIds s n).Nodup) := by
  refine ⟨fun s => rfl, ?_, ?_⟩
  · show (2 ^ 128 - 1 + 1) % 2 ^ 128 = 0
    norm_num
  · intro s n hn
    rw [runReturnedIds_eq]
    refine List.Nodup.map_on ?_ (List.nodup_range n)
    intro i hi j hj hEq
    rw [List.mem_range] at hi hj
    have hm : Nat.ModEq (2 ^ 128) (s.connection_count + (i + 1))
        (s.connection_count + (j + 1)) := by
      show (s.connection_count + (i + 1)) % 2 ^ 128 =
        (s.connection_count + (j + 1)) % 2 ^ 128
      rw [← Nat.add_assoc, ← Nat.add_assoc]
      exact hEq
    have hij : Nat.ModEq (2 ^ 128) (i + 1) (j + 1) :=
      Nat.ModEq.add_left_cancel' s.connection_count hm
    have hi1 : i + 1 < 2 ^ 128 := by omega
    have hj1 : j + 1 < 2 ^ 128 := by omega
    have : i + 1 = j + 1 := by
      have h := hij
      rw [Nat.ModEq, Nat.mod_eq_of_lt hi1, Nat.mod_eq_of_lt hj1] at h
      exact h
    omega

/-- Witness for claim C8: a run of three calls from the default state yields
pairwise distinct connection ids. -/
theorem increase_connection_count_ids_unique_witness :
    3 < 2 ^ 128 ∧ (runReturnedIds SharedState.default 3).Nodup :=
  ⟨by norm_num,
    increase_connection_count_wraps_and_ids_unique.2.2 SharedState.default 3
      (by norm_num)⟩

/-! ## Redirector IP helpers (`redirector.rs`) -/

/-- Rust `str::split(sep)` over the character list of a string: splits at
every separator, keeping empty segments (so splitting the empty string
yields one empty segment). -/
def splitChar (sep : Char) : List Char → List (List Char)
  | [] => [[]]
  | c :: cs =>
    if c = sep then
      [] :: splitChar sep cs
    else
      match splitChar sep cs with
      | [] => [[c]]
      | h :: t => (c :: h) :: t

/-- Rust `u8::from_str` (`str::parse::<u8>()`): an optional leading `+`
followed by one or more ASCII digits whose value fits in `0..=255`;
anything else (empty input, other characters, overflow) is an error. -/
def parseU8 (s : List Char) : Option Nat :=
  let t :=
    match s with
    | '+' :: rest => rest
    | _ => s
  if t.isEmpty then
    none
  else if t.all (fun c => c.isDigit) then
    let v := t.foldl (fun a c => a * 10 + (c.toNat - '0'.toNat)) 0
    if v ≤ 255 then some v else none
  else
    none

/-- Segment loop of `string_to_ip`: accumulates `ip += seg_value * seg` with
the place value `seg` multiplied by 256 while below `16777216`; a parse
error returns `0` from the whole function.  All intermediate `u32` values
are bounded by `255 * (1 + 256 + 65536 + 16777216) = u32::MAX`, so the Rust
`u32` arithmetic never wraps and plain `Nat` arithmetic is exact. -/
def segLoop : List (List Char) → Nat → Nat → Nat
  | [], ip, _ => ip
  | s :: rest, ip, seg =>
    match parseU8 s with
    | none => 0
    | some n =>
      segLoop rest (ip + n * seg) (if seg < 16777216 then seg * 256 else seg)

/-- `string_to_ip` from `redirector.rs`: split on `.`; anything other than
exactly four segments, or any segment that does not parse as `u8`, yields
`0`; otherwise the segments are combined little-end-first. -/
def string_to_ip (s : String) : Nat :=
  let segs := splitChar '.' s.data
  if segs.length ≠ 4 then 0
  else segLoop segs 0 1

/-- `ip_to_string` from `redirector.rs`: renders the low byte first, then
the successive bytes obtained by repeated division by 256, joined with
dots. -/
def ip_to_string (ip : Nat) : String :=
  let segNumber := 16 * 16
  let s1 := Nat.repr (ip % segNumber)
  let ip1 := ip / segNumber
  let s2 := Nat.repr (ip1 % segNumber)
  let ip2 := ip1 / segNumber
  let s3 := Nat.repr (ip2 % segNumber)
  let ip3 := ip2 / segNumber
  let s4 := Nat.repr (ip3 % segNumber)
  s1 ++ "." ++ s2 ++ "." ++ s3 ++ "." ++ s4

/-- Splitting a list that starts with a separator-free segment followed by a
separator peels off that segment. -/
theorem splitChar_append (sep : Char) (a rest : List Char) (h : sep ∉ a) :
    splitChar sep (a ++ sep :: rest) = a :: splitChar sep rest := by
  induction a with
  | nil => simp [splitChar]
  | cons c cs ih =>
    have hc : ¬(c = sep) := fun he => h (he ▸ List.mem_cons_self c cs)
    have hcs : sep ∉ cs := fun hm => h (List.mem_cons_of_mem c hm)
    simp only [List.cons_append, splitChar, if_neg hc, List.append_eq]
    rw [ih hcs]

/-- Splitting a separator-free list yields that single segment. -/
theorem splitChar_noSep (sep : Char) (a : List Char) (h : sep ∉ a) :
    splitChar sep a = [a] := by
  induction a with
  | nil => rfl
  | cons c cs ih =>
    have hc : ¬(c = sep) := fun he => h (he ▸ List.mem_cons_self c cs)
    have hcs : sep ∉ cs := fun hm => h (List.mem_cons_of_mem c hm)
    simp only [splitChar, if_neg hc, ih hcs]

set_option maxRecDepth 40000 in
/-- Parsing the decimal rendering of a byte value recovers the value. -/
theorem parseU8_repr : ∀ n < 256, parseU8 (Nat.repr n).data = some n := by
  decide

set_option maxRecDepth 40000 in
/-- The decimal rendering of a byte value contains no dot. -/
theorem repr_no_dot : ∀ n < 256, ('.' : Char) ∉ (Nat.repr n).data := by
  decide

/-- String concatenation concatenates the underlying character lists. -/
theorem data_append (a b : String) : (a ++ b).data = a.data ++ b.data := by
  cases a
  cases b
  rfl

/-- If any segment fails to parse, the segment loop returns `0`. -/
theorem segLoop_parse_error : ∀ (segs : List (List Char)) (ip seg : Nat),
    (∃ t ∈ segs, parseU8 t = none) → segLoop segs ip seg = 0 := by
  intro segs
  induction segs with
  | nil =>
    intro ip seg h
    rcases h with ⟨t, ht, _⟩
    exact absurd ht (List.not_mem_nil t)
  | cons s rest ih =>
    intro ip seg h
    rcases h with ⟨t, ht, hparse⟩
    rcases List.mem_cons.mp ht with he | hmem
    · subst he
      simp [segLoop, hparse]
    · cases hp : parseU8 s with
      | none => simp [segLoop, hp]
      | some n =>
        simp only [segLoop, hp]
        exact ih _ _ ⟨t, hmem, hparse⟩

/-- Unfolded form of `ip_to_string` (the source computes with
`seg_number = 16 * 16`). -/
theorem ip_to_string_eq (ip : Nat) :
    ip_to_string ip =
      Nat.repr (ip % 256) ++ "." ++ Nat.repr (ip / 256 % 256) ++ "." ++
        Nat.repr (ip / 256 / 256 % 256) ++ "." ++
        Nat.repr (ip / 256 / 256 / 256 % 256) := rfl

/-- Unfolded form of `string_to_ip`. -/
theorem string_to_ip_eq (s : String) :
    string_to_ip s =
      (if (splitChar '.' s.data).length ≠ 4 then 0
       else segLoop (splitChar '.' s.data) 0 1) := rfl

/-- Round trip: converting a `u32` to its dotted string and back is the
identity. -/
theorem string_to_ip_ip_to_string (x : Nat) (hx : x < 2 ^ 32) :
    string_to_ip (ip_to_string x) = x := by
  have h256 : (0 : Nat) < 256 := by norm_num
  have hb0 : x % 256 < 256 := Nat.mod_lt _ h256
  have hb1 : x / 256 % 256 < 256 := Nat.mod_lt _ h256
  have hb2 : x / 256 / 256 % 256 < 256 := Nat.mod_lt _ h256
  have hb3 : x / 256 / 256 / 256 % 256 < 256 := Nat.mod_lt _ h256
  have hdot : ("." : String).data = ['.'] := rfl
  rw [ip_to_string_eq, string_to_ip_eq]
  have hdata : (Nat.repr (x % 256) ++ "." ++ Nat.repr (x / 256 % 256) ++
      "." ++ Nat.repr (x / 256 / 256 % 256) ++ "." ++
      Nat.repr (x / 256 / 256 / 256 % 256)).data =
      (Nat.repr (x % 256)).data ++ '.' ::
        ((Nat.repr (x / 256 % 256)).data ++ '.' ::
          ((Nat.repr (x / 256 / 256 % 256)).data ++ '.' ::
            (Nat.repr (x / 256 / 256 / 256 % 256)).data)) := by
    simp only [data_append, hdot, List.append_assoc, List.cons_append,
      List.nil_append]
  rw [hdata, splitChar_append _ _ _ (repr_no_dot _ hb0),
    splitChar_append _ _ _ (repr_no_dot _ hb1),
    splitChar_append _ _ _ (repr_no_dot _ hb2),
    splitChar_noSep _ _ (repr_no_dot _ hb3)]
  simp only [List.length_cons, List.length_nil]
  rw [if_neg (by norm_num)]
  simp only [segLoop, parseU8_repr _ hb0, parseU8_repr _ hb1,
    parseU8_repr _ hb2, parseU8_repr _ hb3]
  norm_num
  omega

/-- Claim C7: `string_to_ip` is a left inverse of `ip_to_string` on `u32`;
any input without exactly four dot-separated segments, or with a segment
that does not parse as an integer in `0..=255`, maps to `0`; and the
concrete pair from the repository test round-trips:
`ip_to_string 0x10813FA8 = "168.63.129.16"` and back. -/
theorem ip_string_round_trip_and_invalid_inputs :
    (∀ x : Nat, x < 2 ^ 32 → string_to_ip (ip_to_string x) = x) ∧
    (∀ s : String, (splitChar '.' s.data).length ≠ 4 → string_to_ip s = 0) ∧
    (∀ s : String, (∃ t ∈ splitChar '.' s.data, parseU8 t = none) →
      string_to_ip s = 0) ∧
    ip_to_string 0x10813FA8 = "168.63.129.16" ∧
    string_to_ip "168.63.129.16" = 0x10813FA8 := by
  refine ⟨string_to_ip_ip_to_string, ?_, ?_, by decide, by decide⟩
  · intro s h
    rw [string_to_ip, if_pos h]
  · intro s h
    rw [string_to_ip]
    by_cases hlen : (splitChar '.' s.data).length ≠ 4
    · rw [if_pos hlen]
    · rw [if_neg hlen]
      exact segLoop_parse_error _ _ _ h

/-- Witness for claim C7: the round trip at `0x10813FA8` and the two
invalid inputs from the repository test (`1270.0.1` has three segments,
`1270.0.0.1` has a segment above 255). -/
theorem ip_string_round_trip_witness :
    (0x10813FA8 < 2 ^ 32 ∧
      string_to_ip (ip_to_string 0x10813FA8) = 0x10813FA8) ∧
    ((splitChar '.' ("1270.0.1" : String).data).length ≠ 4 ∧
      string_to_ip "1270.0.1" = 0) ∧
    ((∃ t ∈ splitChar '.' ("1270.0.0.1" : String).data, parseU8 t = none) ∧
      string_to_ip "1270.0.0.1" = 0) :=
  ⟨⟨by norm_num,
      ip_string_round_trip_and_invalid_inputs.1 0x10813FA8 (by norm_num)⟩,
    ⟨by decide,
      ip_string_round_trip_and_invalid_inputs.2.1 "1270.0.1" (by decide)⟩,
    ⟨by decide,
      ip_string_round_trip_and_invalid_inputs.2.2.1 "1270.0.0.1" (by decide)⟩⟩

/-! ## Listener and response forwarding (`proxy/proxy_server.rs`) -/

/-- Byte swap of a `w`-byte machine integer: byte `i` (little-endian place
`256 ^ i`) moves to place `256 ^ (w - 1 - i)`.  Rust `uN::to_be` and
`uN::from_be` perform this swap on the little-endian hosts the agent
targets. -/
def byteSwap (w x : Nat) : Nat :=
  (List.range w).foldl
    (fun acc i => acc + x / 256 ^ i % 256 * 256 ^ (w - 1 - i)) 0

/-- Rust `u8::to_be` as applied per body byte in `forward_response`
(`data.iter().map(|byte| byte.to_be())`). -/
def u8_to_be (b : Nat) : Nat := byteSwap 1 b

/-- HTTP body frame as seen by `hyper` `map_frame`: a data frame of bytes or
a non-data (trailers) frame. -/
inductive HFrame where
  | data : List Nat → HFrame
  | trailers : List (String × String) → HFrame
deriving Repr, DecidableEq

/-- Per-frame body transformation of `forward_response`: a data frame has
each byte mapped through `u8::to_be`; a non-data frame is replaced by an
empty data frame. -/
def forward_map_frame (f : HFrame) : HFrame :=
  match f with
  | .data bs => .data (bs.map u8_to_be)
  | .trailers _ => .data []

/-- Refinement reference for claim C10, following the claim wording: the
body transformation is the identity on data frames; non-data frames are
replaced by empty data frames. -/
def forward_map_frame_spec (f : HFrame) : HFrame :=
  match f with
  | .data bs => .data bs
  | .trailers _ => .data []

/-- Modelled from the spec: `constants::AUTHORIZATION_HEADER`
(`common/constants.rs` is not among the provided sources); the spec names
the header `x-ms-azure-host-authorization`. -/
def AUTHORIZATION_HEADER : String := "x-ms-azure-host-authorization"

/-- `hyper` `HeaderMap::insert` semantics on a header list: all previous
values of the name are dropped and the new single value is stored. -/
def headerInsert (hs : List (String × String)) (n v : String) :
    List (String × String) :=
  hs.filter (fun p => p.1 != n) ++ [(n, v)]

/-- Upstream response as received from `hyper_client::send_request`. -/
structure UpstreamResponse where
  status : Nat
  headers : List (String × String)
  frames : List HFrame
deriving Repr, DecidableEq

/-- Response returned to the client by the request handler. -/
structure ClientResponse where
  status : Nat
  headers : List (String × String)
  frames : List HFrame
deriving Repr, DecidableEq

/-- `empty_response` from `proxy/proxy_server.rs`: an empty body with the
given status code and no extra headers. -/
def empty_response (statusCode : Nat) : ClientResponse :=
  { status := statusCode, headers := [], frames := [] }

/-- `ProxySummary` as constructed in `log_connection_summary`
(`proxy/proxy_server.rs`); the response status is kept as its numeric
code. -/
structure ProxySummary where
  id : Nat
  userId : Nat
  userName : String
  userGroups : List String
  clientIp : String
  processFullPath : String
  processCmdLine : String
  runAsElevated : Bool
  method : String
  url : String
  ip : String
  port : Nat
  responseStatus : Nat
  elapsedTime : Nat
deriving Repr, DecidableEq

/-- `ConnectionContext` fields consumed by the handler and the summary
writer; `elapsed` stands for `now.elapsed()` at summary time. -/
structure ConnectionContext where
  id : Nat
  method : String
  url : String
  ip : Option String
  port : Nat
  claims : Option Claims
  elapsed : Nat
deriving Repr, DecidableEq

/-- Modelled from the spec: `ConnectionContext::get_ip_string`
(`proxy/proxy_connection.rs` is not among the provided sources): the
resolved destination ip rendered as a string, empty while unresolved. -/
def ConnectionContext.get_ip_string (c : ConnectionContext) : String :=
  match c.ip with
  | some s => s
  | none => ""

/-- `AuditEntry` from `redirector.rs`; `destination_ipv4` and
`destination_port` are kept in network byte order as on the wire. -/
structure AuditEntry where
  logon_id : Nat
  process_id : Nat
  is_admin : Int
  destination_ipv4 : Nat
  destination_port : Nat
deriving Repr, DecidableEq

/-- `AuditEntry::destination_port_in_host_byte_order` (`u16::from_be`,
a two-byte swap on the little-endian hosts the agent targets). -/
def AuditEntry.destination_port_in_host_byte_order (e : AuditEntry) : Nat :=
  byteSwap 2 e.destination_port

/-- Dotted-decimal rendering of an `Ipv4Addr` whose bits are interpreted
big-endian, as `Ipv4Addr::to_string` does. -/
def ipv4_addr_string (bits : Nat) : String :=
  Nat.repr (bits / 2 ^ 24 % 256) ++ "." ++ Nat.repr (bits / 2 ^ 16 % 256) ++
    "." ++ Nat.repr (bits / 2 ^ 8 % 256) ++ "." ++ Nat.repr (bits % 256)

/-- `AuditEntry::destination_ipv4_addr` rendered as a string:
`Ipv4Addr::from_bits(self.destination_ipv4.to_be())` displayed in dotted
decimal. -/
def AuditEntry.destination_ipv4_addr (e : AuditEntry) : String :=
  ipv4_addr_string (byteSwap 4 e.destination_ipv4)

/-- `log_connection_summary` from `proxy/proxy_server.rs`: the summary is
built from the connection context, substituting `Claims::empty()` when no
claims were resolved. -/
def log_connection_summary (conn : ConnectionContext)
    (responseStatus : Nat) : ProxySummary :=
  let claims :=
    match conn.claims with
    | some c => c
    | none => Claims.empty
  { id := conn.id
    userId := claims.userId
    userName := claims.userName
    userGroups := claims.userGroups
    clientIp := claims.clientIp
    processFullPath := claims.processFullPath
    processCmdLine := claims.processCmdLine
    runAsElevated := claims.runAsElevated
    method := conn.method
    url := conn.url
    ip := conn.get_ip_string
    port := conn.port
    responseStatus := responseStatus
    elapsedTime := conn.elapsed }

/-- `forward_response` from `proxy/proxy_server.rs`: an upstream failure
becomes `503` with a summary; a response is mirrored with its frames mapped
through the per-frame transformation and the provenance header
`x-ms-azure-host-authorization: value` inserted, and a summary is emitted
with the mirrored status. -/
def forward_response (proxyResponse : Option UpstreamResponse)
    (conn : ConnectionContext) : ClientResponse × List ProxySummary :=
  match proxyResponse with
  | none => (empty_response 503, [log_connection_summary conn 503])
  | some r =>
    let resp : ClientResponse :=
      { status := r.status
        headers := headerInsert r.headers AUTHORIZATION_HEADER "value"
        frames := r.frames.map forward_map_frame }
    (resp, [log_connection_summary conn r.status])

/-- Oracle inputs of one `handle_request` run: the provisioning path
constant, the id from `increase_connection_count`, and the outcomes of the
effectful sub-calls in the order the handler consults them.  `auditEntry`
is the combined outcome of `lookup_audit` and the Windows fallback. -/
structure HandleEnv where
  provisionUrlPath : String
  newConnectionId : Nat
  auditEntry : Option AuditEntry
  claimsResult : Option Claims
  claimsSerializeOk : Bool
  authorized : Bool
  claimsHeaderOk : Bool
  dateHeaderOk : Bool
  skipSig : Bool
  bodyCollectOk : Bool
  signatureHeaderOk : Bool
  upstream : Option UpstreamResponse
  provisionResponse : ClientResponse

/-- `handle_request` from `proxy/proxy_server.rs` with its effectful
sub-calls replaced by the oracles in `env`, following the source control
flow: provisioning path short-circuit, audit lookup (`421` on miss), claims
resolution and serialization (`421` on failure, with the claims attached to
the context only after serialization succeeds), authorization (`403` on
deny, after the destination ip and port are resolved), claims and date
header insertion (`502`, no summary), then either the skip-signature
forward or the signing path (`400` on body failure, `502` on a bad
signature header value, both without a summary) ending in
`forward_response`. -/
def handle_request (env : HandleEnv) (conn : ConnectionContext) :
    ClientResponse × List ProxySummary :=
  let conn1 := { conn with id := env.newConnectionId }
  if conn1.url = env.provisionUrlPath then
    (env.provisionResponse, [])
  else
    match env.auditEntry with
    | none => (empty_response 421, [log_connection_summary conn1 421])
    | some entry =>
      match env.claimsResult with
      | none => (empty_response 421, [log_connection_summary conn1 421])
      | some claims =>
        if env.claimsSerializeOk = false then
          (empty_response 421, [log_connection_summary conn1 421])
        else
          let conn2 := { conn1 with
            claims := some claims
            ip := some entry.destination_ipv4_addr
            port := entry.destination_port_in_host_byte_order }
          if env.authorized = false then
            (empty_response 403, [log_connection_summary conn2 403])
          else if env.claimsHeaderOk = false then
            (empty_response 502, [])
          else if env.dateHeaderOk = false then
            (empty_response 502, [])
          else if env.skipSig then
            forward_response env.upstream conn2
          else if env.bodyCollectOk = false then
            (empty_response 400, [])
          else if env.signatureHeaderOk = false then
            (empty_response 502, [])
          else
            forward_response env.upstream conn2

/-- Connection context as constructed in `accept_one_request`: initial id,
no resolved ip, port `0`, no claims. -/
def initial_connection_context (method url : String) (elapsed : Nat) :
    ConnectionContext :=
  { id := 0
    method := method
    url := url
    ip := none
    port := 0
    claims := none
    elapsed := elapsed }

/-- Claim C4: for every accepted connection whose request path is not the
provisioning-status path and whose audit lookup finds no entry,
`handle_request` returns status `421` (Misdirected Request) and emits
exactly one summary built from `Claims::empty()`, whose fields are the
sentinels: user and process ids `0`, `userName`, `processFullPath`,
`processCmdLine` and `clientIp` equal to `"empty"`, `runAsElevated`
`false` (and `Claims::empty()` itself also carries `processName = "empty"`
and `processId = 0`). -/
theorem audit_miss_yields_421_with_sentinel_summary (env : HandleEnv)
    (method url : String) (elapsed : Nat)
    (hurl : url ≠ env.provisionUrlPath)
    (hmiss : env.auditEntry = none) :
    (handle_request env (initial_connection_context method url elapsed)).1.status
        = 421 ∧
    (handle_request env (initial_connection_context method url elapsed)).2 =
      [log_connection_summary
        { initial_connection_context method url elapsed with
            id := env.newConnectionId } 421] ∧
    (∀ s ∈ (handle_request env (initial_connection_context method url elapsed)).2,
      s.userId = 0 ∧ s.userName = "empty" ∧ s.userGroups = [] ∧
      s.processFullPath = "empty" ∧ s.processCmdLine = "empty" ∧
      s.clientIp = "empty" ∧ s.runAsElevated = false ∧
      s.responseStatus = 421) ∧
    Claims.empty.processName = "empty" ∧ Claims.empty.processId = 0 := by
  have hrun : handle_request env (initial_connection_context method url elapsed)
      = (empty_response 421,
        [log_connection_summary
          { initial_connection_context method url elapsed with
              id := env.newConnectionId } 421]) := by
    rw [handle_request]
    simp only [initial_connection_context, hmiss]
    rw [if_neg hurl]
  refine ⟨by rw [hrun]; rfl, by rw [hrun], ?_, rfl, rfl⟩
  intro s hs
  rw [hrun] at hs
  rcases List.mem_singleton.mp hs with rfl
  exact ⟨rfl, rfl, rfl, rfl, rfl, rfl, rfl, rfl⟩

/-- Concrete oracle environment for the claim C4 witness: no audit entry,
request path distinct from the provisioning path. -/
def missEnv : HandleEnv :=
  { provisionUrlPath := "/provision-state"
    newConnectionId := 7
    auditEntry := none
    claimsResult := none
    claimsSerializeOk := true
    authorized := true
    claimsHeaderOk := true
    dateHeaderOk := true
    skipSig := true
    bodyCollectOk := true
    signatureHeaderOk := true
    upstream := none
    provisionResponse := empty_response 200 }

/-- Witness for claim C4 at a concrete connection without an audit entry. -/
theorem audit_miss_yields_421_witness :
    ("/metadata/instance" : String) ≠ missEnv.provisionUrlPath ∧
    (handle_request missEnv
      (initial_connection_context "GET" "/metadata/instance" 3)).1.status
        = 421 ∧
    (∀ s ∈ (handle_request missEnv
        (initial_connection_context "GET" "/metadata/instance" 3)).2,
      s.userId = 0 ∧ s.userName = "empty" ∧ s.userGroups = [] ∧
      s.processFullPath = "empty" ∧ s.processCmdLine = "empty" ∧
      s.clientIp = "empty" ∧ s.runAsElevated = false ∧
      s.responseStatus = 421) :=
  ⟨by decide,
    (audit_miss_yields_421_with_sentinel_summary missEnv "GET"
      "/metadata/instance" 3 (by decide) rfl).1,
    (audit_miss_yields_421_with_sentinel_summary missEnv "GET"
      "/metadata/instance" 3 (by decide) rfl).2.2.1⟩

/-- Claim C9: for every upstream response successfully forwarded by
`forward_response`, the response returned to the client carries exactly one
`x-ms-azure-host-authorization` header and its value is the fixed literal
`"value"`, regardless of the headers the upstream response carried. -/
theorem forwarded_response_single_authorization_marker
    (r : UpstreamResponse) (conn : ConnectionContext) :
    ((forward_response (some r) conn).1.headers.filter
        (fun p => p.1 == AUTHORIZATION_HEADER)).map Prod.snd = ["value"] := by
  show ((headerInsert r.headers AUTHORIZATION_HEADER "value").filter
      (fun p => p.1 == AUTHORIZATION_HEADER)).map Prod.snd = ["value"]
  rw [headerInsert, List.filter_append]
  have h1 : (r.headers.filter (fun p => p.1 != AUTHORIZATION_HEADER)).filter
      (fun p => p.1 == AUTHORIZATION_HEADER) = [] := by
    rw [List.filter_eq_nil_iff]
    intro a ha
    have h2 := (List.mem_filter.mp ha).2
    simp only [bne_iff_ne, ne_eq] at h2
    simp only [beq_iff_eq]
    exact h2
  rw [h1]
  simp

/-- Well-formed frame: every byte of a data frame is an actual byte value. -/
def frame_bytes_wf (f : HFrame) : Prop :=
  match f with
  | .data bs => ∀ b ∈ bs, b < 256
  | .trailers _ => True

/-- Claim C10: the per-frame body transformation of `forward_response` is
the identity on data frames — mapping each byte through `u8::to_be` returns
the byte — and replaces non-data frames by empty data frames, so bodies are
mirrored to the client unmodified. -/
theorem forward_map_frame_refines_identity (f : HFrame)
    (h : frame_bytes_wf f) :
    forward_map_frame f = forward_map_frame_spec f := by
  cases f with
  | data bs =>
    simp only [forward_map_frame, forward_map_frame_spec]
    have hb : ∀ b ∈ bs, u8_to_be b = b := by
      intro b hbmem
      have hlt : b < 256 := h b hbmem
      have hr : List.range 1 = [0] := rfl
      simp only [u8_to_be, byteSwap, hr, List.foldl_cons, List.foldl_nil,
        pow_zero, Nat.div_one, Nat.zero_add, mul_one]
      norm_num [Nat.mod_eq_of_lt hlt]
    rw [List.map_congr_left hb]
    simp
  | trailers t => rfl

/-- Witness for claim C10 at a concrete data frame and a trailers frame. -/
theorem forward_map_frame_refines_identity_witness :
    frame_bytes_wf (HFrame.data [0, 127, 255]) ∧
    forward_map_frame (HFrame.data [0, 127, 255]) =
      forward_map_frame_spec (HFrame.data [0, 127, 255]) :=
  ⟨by simp only [frame_bytes_wf]; decide,
    forward_map_frame_refines_identity (HFrame.data [0, 127, 255])
      (by simp only [frame_bytes_wf]; decide)⟩

end GuestProxyAgent
